import Mathlib

/-!
Verification of the depends-rs resolution-and-dirty-tracking core.

The embedding translates the Rust sources into Lean:
  - `src/depends_core/src/execution/dependency/mod.rs` — the `Dependency`
    wrapper and its `Resolve` implementation (`Dependency::resolve`),
  - `src/depends_core/src/execution/is_dirty.rs` — the `IsDirty` trait,
  - `src/examples/src/comments.rs` — the `Comments` input type.

Parts of the repository that the sources reference but that are not part of
the given files (`NodeHash`, `InputNode`, `DepRef`, `resolve_root`) are
modelled from the specification, with the initial state of a fresh
`InputNode` fixed by the `test_dependency` Debug assertion in the given
source.  Interior mutability (`RefCell`) is embedded by explicit state
passing: every operation takes the pre-state and returns the post-state, and
a `borrowed` flag stands for an outstanding mutable borrow of a cell.
-/

/-- The content-hash value of a node: either never hashed, or a fixed-width
fingerprint.  Mirrors the repository's `NodeHash` type (spec §3 "Content
Hash"; the variant name `NotHashed` appears in the `test_dependency` Debug
assertion). -/
inductive NodeHash where
  | NotHashed : NodeHash
  | Hashed : Nat → NodeHash
deriving DecidableEq, Repr

/-- The Clean/Dirty classification of a single dependency resolution.
Mirrors `DependencyState` (re-exported from `dep_state` in
`dependency/mod.rs`). -/
inductive DependencyState where
  | Clean : DependencyState
  | Dirty : DependencyState
deriving DecidableEq, Repr

/-- The handle returned by a dependency resolution: the resolved value view
paired with its Clean/Dirty classification.  Mirrors `DepRef` (re-exported
from `dep_ref` in `dependency/mod.rs`; spec §4.4). -/
structure DepRef (T : Type) where
  state : DependencyState
  data : T
deriving DecidableEq, Repr

/-- The `IsDirty::is_dirty` test for a `DepRef`: whether the classification is
`Dirty` (from `is_dirty.rs` together with spec §4.4). -/
def DepRef.is_dirty {T : Type} (r : DepRef T) : Bool :=
  r.state = DependencyState.Dirty

/-- The error family of the resolution layer (spec §7): a `RefCell` borrow
that could not be acquired (wrapper-memory contention) or a reentrancy-guard
violation on a node.  Both are propagated, never recovered. -/
inductive ResolveError where
  | BorrowMutError : ResolveError
  | GuardViolation : ResolveError
deriving DecidableEq, Repr

/-- The `Dependency` wrapper from `dependency/mod.rs` lines 23-29: the
contents of the `last_state : RefCell<Option<NodeHash>>` cell, plus a flag
recording whether that cell is currently mutably borrowed (the condition
under which `try_borrow_mut` fails).  The wrapped node itself is supplied to
`Dependency.resolve` as an inner resolve function over a shared state. -/
structure Dependency where
  last_state : Option NodeHash
  borrowed : Bool
deriving DecidableEq, Repr

/-- Constructor `Dependency::new` (`dependency/mod.rs` lines 35-40): the last-observed
hash cell starts empty and unborrowed. -/
def Dependency.new : Dependency :=
  { last_state := none, borrowed := false }

/-- The resolve algorithm `Dependency::resolve` (`dependency/mod.rs` lines
53-63), embedded with
explicit state passing.  `inner` is the wrapped node's `resolve` acting on
the shared state `σ` (the visitor and the node's own cells), `hash` is
`data.hash_value(&mut visitor.hasher())` — the deterministic hashing
strategy supplied by the traversal applied to the resolved value view.

Step by step, as in the source:
  1. `self.last_state.try_borrow_mut()?` — fails if the cell is borrowed;
  2. `self.dependency.resolve(visitor)?` — propagates an inner error;
  3. hash the resolved view;
  4. `last_state.map(|s| s == current_state).unwrap_or(false)` decides
     Clean; otherwise the cell is overwritten and the edge is Dirty.
The returned triple is (result, wrapper post-state, shared post-state);
on an error the wrapper's cell is unchanged. -/
def Dependency.resolve {σ T : Type}
    (inner : σ → Except ResolveError T × σ) (hash : T → NodeHash)
    (d : Dependency) (s : σ) :
    Except ResolveError (DepRef T) × Dependency × σ :=
  if d.borrowed then
    (Except.error ResolveError.BorrowMutError, d, s)
  else
    match inner s with
    | (Except.error e, s2) => (Except.error e, d, s2)
    | (Except.ok data, s2) =>
      let current_state := hash data
      if (d.last_state.map fun st => decide (st = current_state)).getD false then
        (Except.ok { state := DependencyState.Clean, data := data }, d, s2)
      else
        (Except.ok { state := DependencyState.Dirty, data := data },
         { d with last_state := some current_state }, s2)

/-- The reentrancy guard of a leaf node (spec §3 "Resolution State"):
`Resting` (nothing in flight), `Resolving` (a read traversal is in
progress), `Updating` (the payload has been externally mutated and not yet
re-hashed; also the state of a freshly created node, per the
`test_dependency` Debug assertion). -/
inductive ResolveState where
  | Resting : ResolveState
  | Resolving : ResolveState
  | Updating : ResolveState
deriving DecidableEq, Repr

/-- A node's storage cell: the payload plus its cached content hash (spec §3
"Node State"; field names from the `test_dependency` Debug assertion). -/
structure NodeState (T : Type) where
  node_hash : NodeHash
  data : T
deriving DecidableEq, Repr

/-- Modelled from the spec: the `InputNode` leaf (spec §3 "Input Node" and
§4.5), missing from the given sources — only its use in `test_dependency`
is given.  It holds a `NodeState`, a `ResolveState` guard and a sequential
diagnostic id. -/
structure InputNode (T : Type) where
  resolve_state : ResolveState
  state : NodeState T
  id : Nat
deriving DecidableEq, Repr

/-- Modelled from the spec: `InputNode::new`, missing from the given
sources.  The spec's lifecycle sentence says the node is "created with an
initial payload (Resolution State = Resting, Content Hash = Unhashed)", but
the `test_dependency` Debug assertion in the given source
(`"resolve_state: RefCell { value: Updating }, data: RefCell { value:
NodeState { node_hash: NotHashed, ... } }, id: 0"`) fixes the initial guard
state to `Updating` — the marker that the payload has never been hashed —
so the model follows the source's test. -/
def InputNode.new {T : Type} (data : T) : InputNode T :=
  { resolve_state := ResolveState.Updating,
    state := { node_hash := NodeHash.NotHashed, data := data },
    id := 0 }

/-- Modelled from the spec: `InputNode`'s `resolve` (spec §3 lifecycle and
§4.5), missing from the given sources.  Resolving fails with a
guard-violation error if a resolution of this same node is already in
flight; otherwise it lazily re-computes the cached content hash when the
payload changed since last hashed (guard state `Updating`, which also covers
a never-hashed fresh node), returns a read-only view of the payload, and
releases the guard. -/
def InputNode.resolve {T : Type} (hash : T → NodeHash) (n : InputNode T) :
    Except ResolveError T × InputNode T :=
  match n.resolve_state with
  | ResolveState.Resolving => (Except.error ResolveError.GuardViolation, n)
  | st =>
    let nh := if st = ResolveState.Updating then hash n.state.data
              else n.state.node_hash
    (Except.ok n.state.data,
     { resolve_state := ResolveState.Resting,
       state := { node_hash := nh, data := n.state.data },
       id := n.id })

/-- Modelled from the spec: `InputNode::update` (spec §3 lifecycle and
§4.5), missing from the given sources.  `update_mut` is the node type's
`UpdateInput` capability (the partial mutation applied to the payload);
the call fails if a resolution of this node is in flight, and on success it
applies the mutation and marks the node `Updating` so the next resolution
re-hashes. -/
def InputNode.update {T U : Type} (update_mut : T → U → T)
    (n : InputNode T) (u : U) : Except ResolveError (InputNode T) :=
  match n.resolve_state with
  | ResolveState.Resolving => Except.error ResolveError.GuardViolation
  | _ =>
    Except.ok
      { resolve_state := ResolveState.Updating,
        state := { node_hash := n.state.node_hash,
                   data := update_mut n.state.data u },
        id := n.id }

/-- A `Dependency` wrapper resolved against the `InputNode` it wraps
(`SingleDep` specialised to an input node): the inner resolve of
`Dependency.resolve` is the node's own resolve. -/
def resolveDepOnInput {T : Type} (hash : T → NodeHash)
    (d : Dependency) (n : InputNode T) :
    Except ResolveError (DepRef T) × Dependency × InputNode T :=
  Dependency.resolve (InputNode.resolve hash) hash d n

/-- Modelled from the spec: `resolve_root` (spec §4.2), missing from the
given sources.  It performs the same resolution as `resolve` and, upon
successful completion, additionally runs the `Clean` cleanup hook over the
reachable node set — here, the wrapped input node's payload — so transient
per-pass bookkeeping is discarded; the classification and value view
returned are those the resolution produced. -/
def resolveRootOnInput {T : Type} (hash : T → NodeHash) (clean : T → T)
    (d : Dependency) (n : InputNode T) :
    Except ResolveError (DepRef T) × Dependency × InputNode T :=
  match resolveDepOnInput hash d n with
  | (Except.ok r, d2, n2) =>
    (Except.ok r, d2,
     { resolve_state := n2.resolve_state,
       state := { node_hash := n2.state.node_hash,
                  data := clean n2.state.data },
       id := n2.id })
  | e => e

/-- Two `Dependency` wrappers sharing one underlying input node (spec §3:
"the same underlying node may be reached through several independent
Dependency Wrappers").  Sharing of the node is same-thread shared ownership,
so the node appears once in the state. -/
structure TwoWrappers (T : Type) where
  w1 : Dependency
  w2 : Dependency
  node : InputNode T
deriving DecidableEq, Repr

/-- Resolve the first wrapper of a two-wrapper system.  As in the source,
`Dependency::resolve` touches only its own `last_state` cell and the shared
node; the sibling wrapper's cell is a distinct `RefCell` it never accesses,
so `w2` is carried through unchanged. -/
def TwoWrappers.resolveFirst {T : Type} (hash : T → NodeHash)
    (sys : TwoWrappers T) :
    Except ResolveError (DepRef T) × TwoWrappers T :=
  match resolveDepOnInput hash sys.w1 sys.node with
  | (r, w1', n') => (r, { w1 := w1', w2 := sys.w2, node := n' })

/-- Resolve the second wrapper of a two-wrapper system; symmetric to
`TwoWrappers.resolveFirst`. -/
def TwoWrappers.resolveSecond {T : Type} (hash : T → NodeHash)
    (sys : TwoWrappers T) :
    Except ResolveError (DepRef T) × TwoWrappers T :=
  match resolveDepOnInput hash sys.w2 sys.node with
  | (r, w2', n') => (r, { w1 := sys.w1, w2 := w2', node := n' })

/-- The `Foo` node payload from the `test_dependency` module: a single
byte-sized value. -/
structure Foo where
  val : Nat
deriving DecidableEq, Repr

/-- Modelled from the spec: `Foo`'s content hash.  The test's `HashValue`
impl writes the byte into the visitor-supplied hasher and takes its finish
value; the hasher itself (the visitor's strategy) is not among the given
sources, so it is modelled as a deterministic fingerprint that separates
distinct byte values, as the test's expectations presume. -/
def Foo.hash_value (f : Foo) : NodeHash :=
  NodeHash.Hashed f.val

/-- The `UpdateInput` impl of `Foo` from the `test_dependency` module:
`self.0 = update` — the update replaces the stored byte. -/
def Foo.update_mut (_f : Foo) (update : Nat) : Foo :=
  { val := update }

/-- The `Clean` impl of `Foo` from the `test_dependency` module: a no-op. -/
def Foo.clean (f : Foo) : Foo := f

/-- Modelled from the spec: the comment item stored by `Comments`
(`models::Comment` is not among the given sources; `comments.rs` uses only
its `id` field, of the map's key type). -/
structure Comment where
  id : Int
  body : String
deriving DecidableEq, Repr

/-- The comments map, `HashMap<i64, Comment>`, embedded as an association
list where `insert`
replaces any existing entry with the same key. -/
def mapInsert (m : List (Int × Comment)) (k : Int) (v : Comment) :
    List (Int × Comment) :=
  (k, v) :: m.filter fun p => !(p.1 == k)

/-- Key lookup in the association-list embedding of `HashMap`. -/
def mapLookup (m : List (Int × Comment)) (k : Int) : Option Comment :=
  (m.find? fun p => p.1 == k).map Prod.snd

/-- The `Comments` input type from `src/examples/src/comments.rs` lines
10-21: the map of all comments, the ids added since the last generation,
and the generation counter. -/
structure Comments where
  comments : List (Int × Comment)
  new_comment_ids : List Int
  generation : Nat
deriving DecidableEq, Repr

/-- Accessor `Comments::new_comments` (`comments.rs` lines 26-28): the comments whose
ids were added since the last generation, read back out of the map. -/
def Comments.new_comments (c : Comments) : List Comment :=
  c.new_comment_ids.filterMap fun i => mapLookup c.comments i

/-- The impl `Clean for Comments` (`comments.rs` lines 31-35): clear only the
added-this-generation id list. -/
def Comments.clean (c : Comments) : Comments :=
  { c with new_comment_ids := [] }

/-- The impl `UpdateInput for Comments` (`comments.rs` lines 37-46): insert the
comment keyed by its id, record the id as added this generation, and advance
the generation counter. -/
def Comments.update_mut (c : Comments) (update : Comment) : Comments :=
  { comments := mapInsert c.comments update.id update,
    new_comment_ids := c.new_comment_ids ++ [update.id],
    generation := c.generation + 1 }

/-- C1: every successful `Dependency::resolve` classifies the edge Clean
exactly when the stored last-observed hash is present and equal to the
content hash of the freshly resolved value, and Dirty otherwise; the stored
hash is overwritten with the current hash in the Dirty case, and only then
(in the Clean case the wrapper is left entirely unchanged). -/
theorem dependency_resolve_classifies_by_last_state {σ T : Type}
    (inner : σ → Except ResolveError T × σ) (hash : T → NodeHash)
    (d : Dependency) (s : σ) (r : DepRef T) (d2 : Dependency) (s2 : σ)
    (h : Dependency.resolve inner hash d s = (Except.ok r, d2, s2)) :
    (r.state = DependencyState.Clean ↔ d.last_state = some (hash r.data)) ∧
    (r.state = DependencyState.Dirty ↔ d.last_state ≠ some (hash r.data)) ∧
    (r.state = DependencyState.Dirty → d2.last_state = some (hash r.data)) ∧
    (r.state = DependencyState.Clean → d2 = d) := by
  unfold Dependency.resolve at h
  by_cases hb : d.borrowed
  · simp [hb] at h
  · simp [hb] at h
    rcases hi : inner s with ⟨res, s3⟩
    rw [hi] at h
    cases res with
    | error e => simp at h
    | ok data =>
      simp at h
      cases hls : d.last_state with
      | none =>
        simp [hls] at h
        obtain ⟨hr, hd2, _⟩ := h
        subst hr hd2
        simp [hls]
      | some st =>
        by_cases he : st = hash data
        · simp [hls, he] at h
          obtain ⟨hr, hd2, _⟩ := h
          subst hr hd2
          simp [hls, he]
        · simp [hls, he] at h
          obtain ⟨hr, hd2, _⟩ := h
          subst hr hd2
          simp [hls, he]

/-- Witness for C1: a concrete successful resolution (fresh wrapper over a
constant inner node) satisfying the classification contract. -/
theorem dependency_resolve_classifies_by_last_state_witness :
    (DepRef.state { state := DependencyState.Dirty, data := (5 : Nat) }
        = DependencyState.Clean ↔
      Dependency.new.last_state = some (NodeHash.Hashed 5)) ∧
    (DepRef.state { state := DependencyState.Dirty, data := (5 : Nat) }
        = DependencyState.Dirty ↔
      Dependency.new.last_state ≠ some (NodeHash.Hashed 5)) ∧
    (DepRef.state { state := DependencyState.Dirty, data := (5 : Nat) }
        = DependencyState.Dirty →
      Dependency.last_state
          { last_state := some (NodeHash.Hashed 5), borrowed := false }
        = some (NodeHash.Hashed 5)) ∧
    (DepRef.state { state := DependencyState.Dirty, data := (5 : Nat) }
        = DependencyState.Clean →
      ({ last_state := some (NodeHash.Hashed 5), borrowed := false }
        : Dependency) = Dependency.new) := by
  have := dependency_resolve_classifies_by_last_state
    (fun u : Unit => (Except.ok (5 : Nat), u))
    (fun v : Nat => NodeHash.Hashed v) Dependency.new ()
    { state := DependencyState.Dirty, data := (5 : Nat) }
    { last_state := some (NodeHash.Hashed 5), borrowed := false } ()
    rfl
  simpa using this

/-- C3: `Dependency::resolve` returns an error exactly when the wrapper's
own last-observed-hash cell is already mutably borrowed (the same edge is
being resolved reentrantly) or when resolving the wrapped node returns an
error; in every error case the stored last-observed hash is left unchanged,
the failure occurring before any write to the cell. -/
theorem dependency_resolve_error_conditions {σ T : Type}
    (inner : σ → Except ResolveError T × σ) (hash : T → NodeHash)
    (d : Dependency) (s : σ) :
    ((∃ e, (Dependency.resolve inner hash d s).1 = Except.error e) ↔
      (d.borrowed = true ∨ ∃ e, (inner s).1 = Except.error e)) ∧
    (∀ e, (Dependency.resolve inner hash d s).1 = Except.error e →
      (Dependency.resolve inner hash d s).2.1.last_state = d.last_state) := by
  unfold Dependency.resolve
  by_cases hb : d.borrowed
  · simp [hb]
  · simp [hb]
    rcases hi : inner s with ⟨res, s3⟩
    cases res with
    | error e => simp
    | ok data =>
      simp
      cases hls : d.last_state with
      | none => simp
      | some st =>
        by_cases he : st = hash data
        · simp [he]
        · simp [he]

/-- C5: for a wrapper freshly built with `Dependency::new` (empty
last-observed-hash memory), the first successful resolution classifies
Dirty, regardless of the wrapped node's payload. -/
theorem first_resolution_is_dirty {σ T : Type}
    (inner : σ → Except ResolveError T × σ) (hash : T → NodeHash)
    (s : σ) (r : DepRef T) (d2 : Dependency) (s2 : σ)
    (h : Dependency.resolve inner hash Dependency.new s
      = (Except.ok r, d2, s2)) :
    r.state = DependencyState.Dirty := by
  unfold Dependency.resolve Dependency.new at h
  simp at h
  rcases hi : inner s with ⟨res, s3⟩
  rw [hi] at h
  cases res with
  | error e => simp at h
  | ok data =>
    simp at h
    exact h.1 ▸ rfl

/-- Witness for C5: the first resolution of a fresh wrapper over a concrete
constant node is Dirty. -/
theorem first_resolution_is_dirty_witness :
    DepRef.state { state := DependencyState.Dirty, data := (7 : Nat) }
      = DependencyState.Dirty :=
  first_resolution_is_dirty (fun u : Unit => (Except.ok (7 : Nat), u))
    (fun v : Nat => NodeHash.Hashed v) ()
    { state := DependencyState.Dirty, data := (7 : Nat) }
    { last_state := some (NodeHash.Hashed 7), borrowed := false } () rfl

/-- C10: invariant of the wrapper — after every `resolve` call that returns
Ok, the stored last-observed hash equals `some h` where `h` is the content
hash of the value resolved in that call: overwritten on the Dirty branch,
already equal and untouched on the Clean branch. -/
theorem resolve_postcondition_last_state {σ T : Type}
    (inner : σ → Except ResolveError T × σ) (hash : T → NodeHash)
    (d : Dependency) (s : σ) (r : DepRef T) (d2 : Dependency) (s2 : σ)
    (h : Dependency.resolve inner hash d s = (Except.ok r, d2, s2)) :
    d2.last_state = some (hash r.data) := by
  unfold Dependency.resolve at h
  by_cases hb : d.borrowed
  · simp [hb] at h
  · simp [hb] at h
    rcases hi : inner s with ⟨res, s3⟩
    rw [hi] at h
    cases res with
    | error e => simp at h
    | ok data =>
      simp at h
      cases hls : d.last_state with
      | none =>
        simp [hls] at h
        obtain ⟨hr, hd2, _⟩ := h
        subst hr hd2
        rfl
      | some st =>
        by_cases he : st = hash data
        · simp [hls, he] at h
          obtain ⟨hr, hd2, _⟩ := h
          subst hr hd2
          simp [hls, he]
        · simp [hls, he] at h
          obtain ⟨hr, hd2, _⟩ := h
          subst hr hd2
          rfl

/-- Witness for C10: after a concrete successful resolution, the wrapper's
cell holds the hash of the value just resolved. -/
theorem resolve_postcondition_last_state_witness :
    Dependency.last_state
        { last_state := some (NodeHash.Hashed 9), borrowed := false }
      = some (NodeHash.Hashed 9) :=
  resolve_postcondition_last_state
    (fun u : Unit => (Except.ok (9 : Nat), u))
    (fun v : Nat => NodeHash.Hashed v) Dependency.new ()
    { state := DependencyState.Dirty, data := (9 : Nat) }
    { last_state := some (NodeHash.Hashed 9), borrowed := false } () rfl

/-- Counterexample to C4 as stated: a freshly constructed `InputNode` does
not have guard state `Resting` — the `test_dependency` Debug assertion shows
`resolve_state: RefCell { value: Updating }` for the node just built from
payload `Foo(57)`. -/
theorem input_node_new_resting_counterexample :
    ¬ ((InputNode.new { val := 57 : Foo }).resolve_state
        = ResolveState.Resting ∧
       (InputNode.new { val := 57 : Foo }).state.node_hash
        = NodeHash.NotHashed) := by
  decide

/-- C4 amended: `InputNode::new(initial_payload)` produces a node whose
guard state is `Updating` (never resolved, payload not yet hashed) and whose
cached content hash is `NotHashed`, before any resolve or update. -/
theorem input_node_new_updating_unhashed {T : Type} (v : T) :
    (InputNode.new v).resolve_state = ResolveState.Updating ∧
    (InputNode.new v).state.node_hash = NodeHash.NotHashed :=
  ⟨rfl, rfl⟩

/-- C8: the `test_dependency` scenario — a wrapper over an input node built
from payload 57: the first `resolve_root` is Dirty with value 57, an
immediate second `resolve_root` with no intervening update is Clean with
value 57, and after `update(42)` a third `resolve_root` is Dirty with value
42. -/
theorem concrete_scenario_57_42 :
    resolveRootOnInput Foo.hash_value Foo.clean Dependency.new
        (InputNode.new { val := 57 })
      = (Except.ok { state := DependencyState.Dirty, data := { val := 57 } },
         { last_state := some (NodeHash.Hashed 57), borrowed := false },
         { resolve_state := ResolveState.Resting,
           state := { node_hash := NodeHash.Hashed 57, data := { val := 57 } },
           id := 0 }) ∧
    resolveRootOnInput Foo.hash_value Foo.clean
        { last_state := some (NodeHash.Hashed 57), borrowed := false }
        { resolve_state := ResolveState.Resting,
          state := { node_hash := NodeHash.Hashed 57, data := { val := 57 } },
          id := 0 }
      = (Except.ok { state := DependencyState.Clean, data := { val := 57 } },
         { last_state := some (NodeHash.Hashed 57), borrowed := false },
         { resolve_state := ResolveState.Resting,
           state := { node_hash := NodeHash.Hashed 57, data := { val := 57 } },
           id := 0 }) ∧
    InputNode.update Foo.update_mut
        { resolve_state := ResolveState.Resting,
          state := { node_hash := NodeHash.Hashed 57, data := { val := 57 } },
          id := 0 } 42
      = Except.ok
          { resolve_state := ResolveState.Updating,
            state := { node_hash := NodeHash.Hashed 57, data := { val := 42 } },
            id := 0 } ∧
    resolveRootOnInput Foo.hash_value Foo.clean
        { last_state := some (NodeHash.Hashed 57), borrowed := false }
        { resolve_state := ResolveState.Updating,
          state := { node_hash := NodeHash.Hashed 57, data := { val := 42 } },
          id := 0 }
      = (Except.ok { state := DependencyState.Dirty, data := { val := 42 } },
         { last_state := some (NodeHash.Hashed 42), borrowed := false },
         { resolve_state := ResolveState.Resting,
           state := { node_hash := NodeHash.Hashed 42, data := { val := 42 } },
           id := 0 }) :=
  ⟨rfl, rfl, rfl, rfl⟩

/-- Dropping the entries whose key is `j` does not affect a search for a
different key `k`. -/
theorem find_filter_other_key (t : List (Int × Comment)) (k j : Int)
    (h : ¬ k = j) :
    (t.filter fun p => !(p.1 == j)).find? (fun p => p.1 == k)
      = t.find? fun p => p.1 == k := by
  induction t with
  | nil => rfl
  | cons p t ih =>
    rw [List.filter_cons]
    by_cases hp1 : p.1 = j
    · have hpk : ((p.1 == k) = false) := by simp [hp1, Ne.symm h]
      rw [if_neg (by simp [hp1]), List.find?_cons, hpk, ih]
    · rw [if_pos (by simp [hp1]), List.find?_cons, List.find?_cons]
      cases hpk : (p.1 == k) with
      | true => rfl
      | false => exact ih

/-- Looking a key up after `mapInsert` finds the new value at the inserted
key and is unchanged at every other key. -/
theorem mapLookup_insert (m : List (Int × Comment)) (k j : Int)
    (v : Comment) :
    mapLookup (mapInsert m j v) k
      = if k = j then some v else mapLookup m k := by
  by_cases h : k = j
  · subst h
    simp [mapLookup, mapInsert]
  · simp only [mapLookup, mapInsert, if_neg h]
    rw [List.find?_cons_of_neg _ (by simp [Ne.symm h]),
      find_filter_other_key m k j h]

/-- C9: `Comments::update_mut` inserts the comment into the map keyed by its
id, appends the id to the added-this-generation list, and increments the
generation counter; `Comments::clean` empties only that list — afterwards
`new_comments` yields nothing while the map and the generation counter are
unchanged and the map still holds the inserted comment. -/
theorem comments_update_clean_frame (c : Comments) (u : Comment) (k : Int) :
    ((c.update_mut u).new_comment_ids = c.new_comment_ids ++ [u.id]) ∧
    ((c.update_mut u).generation = c.generation + 1) ∧
    (mapLookup (c.update_mut u).comments k
      = if k = u.id then some u else mapLookup c.comments k) ∧
    ((c.update_mut u).clean.new_comment_ids = []) ∧
    ((c.update_mut u).clean.new_comments = []) ∧
    ((c.update_mut u).clean.comments = (c.update_mut u).comments) ∧
    ((c.update_mut u).clean.generation = (c.update_mut u).generation) ∧
    (mapLookup (c.update_mut u).clean.comments u.id = some u) := by
  refine ⟨rfl, rfl, mapLookup_insert c.comments k u.id u, rfl, rfl, rfl,
    rfl, ?_⟩
  have := mapLookup_insert c.comments u.id u.id u
  simpa [Comments.clean, Comments.update_mut] using this

/-- The wrapper's Clean test — `last_state.map(|s| s == current).unwrap_or
(false)` — holds exactly when the cell stores the current hash. -/
theorem last_state_test_iff (o : Option NodeHash) (c : NodeHash) :
    ((o.map fun st => decide (st = c)).getD false = true) ↔ o = some c := by
  cases o <;> simp

/-- An `InputNode` that is not mid-resolution resolves successfully: it
returns its payload, re-hashes exactly when the guard is `Updating`, and
comes to rest. -/
theorem input_resolve_of_not_resolving {T : Type} (hash : T → NodeHash)
    (n : InputNode T) (h : ¬ n.resolve_state = ResolveState.Resolving) :
    InputNode.resolve hash n
      = (Except.ok n.state.data,
         { resolve_state := ResolveState.Resting,
           state := { node_hash :=
                        (if n.resolve_state = ResolveState.Updating
                         then hash n.state.data else n.state.node_hash),
                      data := n.state.data },
           id := n.id }) := by
  cases hs : n.resolve_state with
  | Resolving => exact absurd hs h
  | Resting => simp [InputNode.resolve, hs]
  | Updating => simp [InputNode.resolve, hs]

/-- Full characterization of a successful resolution of a wrapper over an
input node: the pre-states were accessible, the returned view is the node's
payload, the wrapper ends holding the payload's current hash, the node comes
to rest with its payload intact, and the classification is Clean exactly
when the wrapper already held the current hash. -/
theorem resolveDepOnInput_ok_parts {T : Type} (hash : T → NodeHash)
    (d : Dependency) (n : InputNode T) (r : DepRef T) (d2 : Dependency)
    (n2 : InputNode T)
    (h : resolveDepOnInput hash d n = (Except.ok r, d2, n2)) :
    d.borrowed = false ∧
    ¬ n.resolve_state = ResolveState.Resolving ∧
    r.data = n.state.data ∧
    (r.state = if d.last_state = some (hash n.state.data)
      then DependencyState.Clean else DependencyState.Dirty) ∧
    d2 = { last_state := some (hash n.state.data), borrowed := false } ∧
    n2 = { resolve_state := ResolveState.Resting,
           state := { node_hash :=
                        (if n.resolve_state = ResolveState.Updating
                         then hash n.state.data else n.state.node_hash),
                      data := n.state.data },
           id := n.id } := by
  unfold resolveDepOnInput Dependency.resolve at h
  by_cases hb : d.borrowed
  · simp [hb] at h
  · have hbf : d.borrowed = false := by simpa using hb
    by_cases hs : n.resolve_state = ResolveState.Resolving
    · simp [hbf, InputNode.resolve, hs] at h
    · rw [input_resolve_of_not_resolving hash n hs] at h
      simp [hbf] at h
      cases hls : d.last_state with
      | none =>
        simp [hls] at h
        obtain ⟨hr, hd2, hn2⟩ := h
        subst hr hd2 hn2
        simp [hbf, hs, hls]
      | some st =>
        by_cases he : st = hash n.state.data
        · simp [hls, he] at h
          obtain ⟨hr, hd2, hn2⟩ := h
          subst hr hn2
          refine ⟨hbf, hs, rfl, by simp [hls, he], ?_, rfl⟩
          cases hd2
          cases d with
          | mk ls bo =>
            simp at hls hbf
            simp [hls, he, hbf]
        · simp [hls, he] at h
          obtain ⟨hr, hd2, hn2⟩ := h
          subst hr hd2 hn2
          have : ¬ (some st = some (hash n.state.data)) := by simp [he]
          simp [hbf, hs, hls, this]

/-- C6: if a wrapper's resolution succeeds and the wrapper is resolved again
with no mutation of the wrapped node in between (same deterministic hashing
strategy), the second resolution succeeds and classifies Clean, returning
the same value; neither the wrapper nor the node changes further. -/
theorem idempotent_clean_resolution {T : Type} (hash : T → NodeHash)
    (d : Dependency) (n : InputNode T) (r : DepRef T) (d2 : Dependency)
    (n2 : InputNode T)
    (h : resolveDepOnInput hash d n = (Except.ok r, d2, n2)) :
    resolveDepOnInput hash d2 n2
      = (Except.ok { state := DependencyState.Clean, data := r.data },
         d2, n2) := by
  obtain ⟨hb, hs, hrd, hrs, hd2, hn2⟩ :=
    resolveDepOnInput_ok_parts hash d n r d2 n2 h
  subst hd2 hn2
  simp [resolveDepOnInput, Dependency.resolve, InputNode.resolve, hrd]

/-- Witness for C6: after a concrete first resolution (wrapper holding the
hash of payload 3, node at rest), the second resolution is Clean with the
same value and changes nothing. -/
theorem idempotent_clean_resolution_witness :
    resolveDepOnInput (fun v : Nat => NodeHash.Hashed v)
        { last_state := some (NodeHash.Hashed 3), borrowed := false }
        { resolve_state := ResolveState.Resting,
          state := { node_hash := NodeHash.Hashed 3, data := 3 }, id := 0 }
      = (Except.ok { state := DependencyState.Clean, data := (3 : Nat) },
         { last_state := some (NodeHash.Hashed 3), borrowed := false },
         { resolve_state := ResolveState.Resting,
           state := { node_hash := NodeHash.Hashed 3, data := 3 },
           id := 0 }) :=
  idempotent_clean_resolution (fun v : Nat => NodeHash.Hashed v)
    Dependency.new (InputNode.new 3)
    { state := DependencyState.Dirty, data := 3 }
    { last_state := some (NodeHash.Hashed 3), borrowed := false }
    { resolve_state := ResolveState.Resting,
      state := { node_hash := NodeHash.Hashed 3, data := 3 }, id := 0 } rfl

/-- C7: for a wrapper whose memory holds the hash of the node's current
payload, after a successful `update`: if the update strictly changed the
payload's content hash the next resolution classifies Dirty, and if it left
the content hash unchanged the next resolution classifies Clean. -/
theorem change_detection {T U : Type} (hash : T → NodeHash)
    (update_mut : T → U → T) (d : Dependency) (n : InputNode T) (u : U)
    (n2 : InputNode T)
    (hobs : d.last_state = some (hash n.state.data))
    (hb : d.borrowed = false)
    (hu : InputNode.update update_mut n u = Except.ok n2) :
    ∃ (r : DepRef T) (d3 : Dependency) (n3 : InputNode T),
      resolveDepOnInput hash d n2 = (Except.ok r, d3, n3) ∧
      (hash n2.state.data ≠ hash n.state.data →
        r.state = DependencyState.Dirty) ∧
      (hash n2.state.data = hash n.state.data →
        r.state = DependencyState.Clean) := by
  have hn2 : n2 = { resolve_state := ResolveState.Updating,
                    state := { node_hash := n.state.node_hash,
                               data := update_mut n.state.data u },
                    id := n.id } := by
    unfold InputNode.update at hu
    cases hs : n.resolve_state <;> rw [hs] at hu <;> simp at hu <;>
      exact hu.symm
  subst hn2
  by_cases hcc : hash (update_mut n.state.data u) = hash n.state.data
  · refine ⟨{ state := DependencyState.Clean,
              data := update_mut n.state.data u }, d,
      { resolve_state := ResolveState.Resting,
        state := { node_hash := hash (update_mut n.state.data u),
                   data := update_mut n.state.data u },
        id := n.id }, ?_, ?_, ?_⟩
    · simp [resolveDepOnInput, Dependency.resolve, InputNode.resolve,
        hb, hobs, hcc]
    · intro hne
      exact absurd hcc hne
    · intro _
      rfl
  · refine ⟨{ state := DependencyState.Dirty,
              data := update_mut n.state.data u },
      { last_state := some (hash (update_mut n.state.data u)),
        borrowed := false },
      { resolve_state := ResolveState.Resting,
        state := { node_hash := hash (update_mut n.state.data u),
                   data := update_mut n.state.data u },
        id := n.id }, ?_, ?_, ?_⟩
    · simp [resolveDepOnInput, Dependency.resolve, InputNode.resolve,
        hb, hobs, hcc]
      exact fun hx => hcc hx.symm
    · intro _
      rfl
    · intro hcontra
      exact absurd hcontra hcc

/-- Witness for C7: wrapper remembering hash 5, node updated from 5 to 9;
the next resolution is Dirty because the hash strictly changed. -/
theorem change_detection_witness :
    ∃ (r : DepRef Nat) (d3 : Dependency) (n3 : InputNode Nat),
      resolveDepOnInput (fun v : Nat => NodeHash.Hashed v)
          { last_state := some (NodeHash.Hashed 5), borrowed := false }
          { resolve_state := ResolveState.Updating,
            state := { node_hash := NodeHash.Hashed 5, data := 9 },
            id := 0 }
        = (Except.ok r, d3, n3) ∧
      (NodeHash.Hashed 9 ≠ NodeHash.Hashed 5 →
        r.state = DependencyState.Dirty) ∧
      (NodeHash.Hashed 9 = NodeHash.Hashed 5 →
        r.state = DependencyState.Clean) :=
  change_detection (fun v : Nat => NodeHash.Hashed v) (fun _ u => u)
    { last_state := some (NodeHash.Hashed 5), borrowed := false }
    { resolve_state := ResolveState.Resting,
      state := { node_hash := NodeHash.Hashed 5, data := 5 }, id := 0 } 9
    { resolve_state := ResolveState.Updating,
      state := { node_hash := NodeHash.Hashed 5, data := 9 }, id := 0 }
    rfl rfl rfl

/-- Resolving the same wrapper against two nodes that carry the same payload
and are not mid-resolution yields the same Clean/Dirty classification. -/
theorem resolve_state_congr_same_payload {T : Type} (hash : T → NodeHash)
    (w : Dependency) (m1 m2 : InputNode T)
    (hd : m1.state.data = m2.state.data)
    (h1 : ¬ m1.resolve_state = ResolveState.Resolving)
    (h2 : ¬ m2.resolve_state = ResolveState.Resolving) :
    ((resolveDepOnInput hash w m1).1.map fun x => x.state)
      = ((resolveDepOnInput hash w m2).1.map fun x => x.state) := by
  unfold resolveDepOnInput Dependency.resolve
  by_cases hb : w.borrowed
  · simp [hb]
  · have hbf : w.borrowed = false := by simpa using hb
    rw [input_resolve_of_not_resolving hash m1 h1,
      input_resolve_of_not_resolving hash m2 h2]
    simp only [hbf, hd, Bool.false_eq_true, if_false]
    cases hc : (w.last_state.map fun st =>
        decide (st = hash m2.state.data)).getD false <;>
      simp [hc]

/-- C2: in a system of two wrappers sharing one node, a successful
resolution of the first wrapper leaves the second wrapper's stored
last-observed hash untouched and the shared payload unchanged, so the
Clean/Dirty classification of the second wrapper's next resolution is
unaffected. -/
theorem per_edge_independence {T : Type} (hash : T → NodeHash)
    (sys : TwoWrappers T) (r : DepRef T) (sys2 : TwoWrappers T)
    (h : TwoWrappers.resolveFirst hash sys = (Except.ok r, sys2)) :
    sys2.w2 = sys.w2 ∧
    sys2.node.state.data = sys.node.state.data ∧
    ((TwoWrappers.resolveSecond hash sys2).1.map fun x => x.state)
      = ((TwoWrappers.resolveSecond hash sys).1.map fun x => x.state) := by
  unfold TwoWrappers.resolveFirst at h
  rcases hx : resolveDepOnInput hash sys.w1 sys.node with ⟨res, w1b, nb⟩
  rw [hx] at h
  simp at h
  obtain ⟨hres, hsys2⟩ := h
  subst hsys2
  rcases res with e | rr
  · simp at hres
  · simp at hres
    subst hres
    obtain ⟨hb, hs, hrd, hrs, hd2, hn2⟩ :=
      resolveDepOnInput_ok_parts hash sys.w1 sys.node rr w1b nb hx
    subst hn2
    refine ⟨rfl, rfl, ?_⟩
    unfold TwoWrappers.resolveSecond
    rcases h1 : resolveDepOnInput hash sys.w2
        { resolve_state := ResolveState.Resting,
          state := { node_hash :=
                       (if sys.node.resolve_state = ResolveState.Updating
                        then hash sys.node.state.data
                        else sys.node.state.node_hash),
                     data := sys.node.state.data },
          id := sys.node.id } with ⟨resA, wA, nA⟩
    rcases h2 : resolveDepOnInput hash sys.w2 sys.node with ⟨resB, wB, nB⟩
    have := resolve_state_congr_same_payload hash sys.w2
      { resolve_state := ResolveState.Resting,
        state := { node_hash :=
                     (if sys.node.resolve_state = ResolveState.Updating
                      then hash sys.node.state.data
                      else sys.node.state.node_hash),
                   data := sys.node.state.data },
        id := sys.node.id } sys.node rfl (by simp) hs
    rw [h1, h2] at this
    simpa using this

/-- Witness for C2: two fresh wrappers sharing a node holding 4; resolving
the first leaves the second wrapper and its next classification unchanged. -/
theorem per_edge_independence_witness :
    TwoWrappers.w2
        { w1 := { last_state := some (NodeHash.Hashed 4), borrowed := false },
          w2 := Dependency.new,
          node := { resolve_state := ResolveState.Resting,
                    state := { node_hash := NodeHash.Hashed 4, data := 4 },
                    id := 0 } }
      = TwoWrappers.w2
          { w1 := Dependency.new, w2 := Dependency.new,
            node := InputNode.new (4 : Nat) } ∧
    NodeState.data (InputNode.state
        (TwoWrappers.node
          { w1 := { last_state := some (NodeHash.Hashed 4),
                    borrowed := false },
            w2 := Dependency.new,
            node := { resolve_state := ResolveState.Resting,
                      state := { node_hash := NodeHash.Hashed 4, data := 4 },
                      id := 0 } }))
      = NodeState.data (InputNode.state
          (TwoWrappers.node
            { w1 := Dependency.new, w2 := Dependency.new,
              node := InputNode.new (4 : Nat) })) ∧
    ((TwoWrappers.resolveSecond (fun v : Nat => NodeHash.Hashed v)
        { w1 := { last_state := some (NodeHash.Hashed 4), borrowed := false },
          w2 := Dependency.new,
          node := { resolve_state := ResolveState.Resting,
                    state := { node_hash := NodeHash.Hashed 4, data := 4 },
                    id := 0 } }).1.map fun x => x.state)
      = ((TwoWrappers.resolveSecond (fun v : Nat => NodeHash.Hashed v)
          { w1 := Dependency.new, w2 := Dependency.new,
            node := InputNode.new (4 : Nat) }).1.map fun x => x.state) :=
  per_edge_independence (fun v : Nat => NodeHash.Hashed v)
    { w1 := Dependency.new, w2 := Dependency.new,
      node := InputNode.new (4 : Nat) }
    { state := DependencyState.Dirty, data := 4 }
    { w1 := { last_state := some (NodeHash.Hashed 4), borrowed := false },
      w2 := Dependency.new,
      node := { resolve_state := ResolveState.Resting,
                state := { node_hash := NodeHash.Hashed 4, data := 4 },
                id := 0 } } rfl

/-- Witness for C3: at a concrete reentrantly-borrowed wrapper the resolve
call errors and the stored hash is untouched. -/
theorem dependency_resolve_error_conditions_witness :
    ((∃ e, (Dependency.resolve (fun u : Unit => (Except.ok (1 : Nat), u))
        (fun v : Nat => NodeHash.Hashed v)
        { last_state := some (NodeHash.Hashed 1), borrowed := true } ()).1
          = Except.error e) ↔
      (Dependency.borrowed
          { last_state := some (NodeHash.Hashed 1), borrowed := true }
        = true ∨
       ∃ e, (((Except.ok (1 : Nat), ()) : Except ResolveError Nat × Unit)).1
          = Except.error e)) ∧
    (∀ e, (Dependency.resolve (fun u : Unit => (Except.ok (1 : Nat), u))
        (fun v : Nat => NodeHash.Hashed v)
        { last_state := some (NodeHash.Hashed 1), borrowed := true } ()).1
          = Except.error e →
      (Dependency.resolve (fun u : Unit => (Except.ok (1 : Nat), u))
        (fun v : Nat => NodeHash.Hashed v)
        { last_state := some (NodeHash.Hashed 1), borrowed := true }
        ()).2.1.last_state
        = Dependency.last_state
            { last_state := some (NodeHash.Hashed 1), borrowed := true }) :=
  dependency_resolve_error_conditions
    (fun u : Unit => (Except.ok (1 : Nat), u))
    (fun v : Nat => NodeHash.Hashed v)
    { last_state := some (NodeHash.Hashed 1), borrowed := true } ()
